import Mathlib

/-!
Verification development for the NexusFix coroutine session engine.

Shallow embedding of the parts of the code that the checked properties
talk about:

* `MemoryStore` and its `store` operation
  (src/include/nexusfix/store/message_store.hpp, lines 118-228);
* the session state machine, `connect_phase`, the active-phase receiver
  dispatch, `handle_resend_request`, the sequence-number bookkeeping of
  `send_raw_unlocked`, and `session_with_recovery`
  (src/include/nexusfix/session/coroutine_session.hpp);
* `AsyncMutex.unlock` and the `when_any` combinator
  (src/include/nexusfix/session/async_primitives.hpp).

The headers `sequence.hpp`, `state.hpp` and `coroutine.hpp` are not in
the source tree; the definitions taken from them are modelled from the
specification and carry a doc comment saying so.  Atomics are embedded
sequentially (every compare-and-swap succeeds on its first attempt),
which is exact for the single-threaded cooperative deployment the
specification describes.
-/

namespace NexusFix

-- ===========================================================================
-- Message store (src/include/nexusfix/store/message_store.hpp)
-- ===========================================================================

/-- In-memory message store `nfx::store::MemoryStore`: an ordered list of
`(sequence, bytes)` entries, a capacity bound `maxMessages` (default
10000 in the source), and the statistics counters that `store` touches. -/
structure MemoryStore where
  messages : List (Nat × List Char)
  maxMessages : Nat
  storeFailures : Nat
  messagesStored : Nat
  bytesStored : Nat
  deriving DecidableEq, Repr

/-- Replace the payload of the first entry whose sequence is `seq`
(the source walks `messages_` and returns at the first hit); `none`
when no entry matches. -/
def updateFirst (seq : Nat) (msg : List Char) :
    List (Nat × List Char) → Option (List (Nat × List Char))
  | [] => none
  | p :: rest =>
      if p.1 = seq then some ((p.1, msg) :: rest)
      else (updateFirst seq msg rest).map (p :: ·)

/-- `MemoryStore::store` (message_store.hpp lines 143-161): if the store
already holds `max_messages_` entries it bumps `store_failures` and
returns `false`; otherwise it overwrites an existing entry for `seq_num`
in place, or appends a fresh entry and bumps the byte/message counters.
Returns the updated store and the boolean result. -/
def MemoryStore.store (s : MemoryStore) (seqNum : Nat) (msg : List Char) :
    MemoryStore × Bool :=
  if s.maxMessages ≤ s.messages.length then
    ({ s with storeFailures := s.storeFailures + 1 }, false)
  else
    match updateFirst seqNum msg s.messages with
    | some l => ({ s with messages := l }, true)
    | none =>
        ({ s with
            messages := s.messages ++ [(seqNum, msg)],
            messagesStored := s.messagesStored + 1,
            bytesStored := s.bytesStored + msg.length }, true)

/-- First payload stored under `seq`, if any (the lookup the source's
`retrieve` performs; used to state what an in-place update produced). -/
def lookupSeq (seq : Nat) : List (Nat × List Char) → Option (List Char)
  | [] => none
  | p :: rest => if p.1 = seq then some p.2 else lookupSeq seq rest

-- ===========================================================================
-- Sequence manager (modelled: sequence.hpp is not in the source tree)
-- ===========================================================================

/-- Modelled from the spec: `SequenceManager` (the header
src/include/nexusfix/session/sequence.hpp is absent).  Spec §3: it
"holds `next_outbound` and `expected_inbound`, both ≥ 1". -/
structure SequenceManager where
  nextOutbound : Nat
  expectedInbound : Nat
  deriving DecidableEq, Repr

/-- Modelled from the spec: "`next_outbound` returns the current value
then increments" (spec §3). -/
def SequenceManager.next_outbound (s : SequenceManager) :
    Nat × SequenceManager :=
  (s.nextOutbound, { s with nextOutbound := s.nextOutbound + 1 })

/-- Modelled from the spec: `current_outbound` (sequence.hpp absent).
Spec §4.7 fixes its meaning through the send discipline — "Before
transmission the outbound message is passed to the message store keyed
by the sequence number that was allocated at build time" — so it reads
the most recently allocated outbound sequence number, i.e. the counter
minus one. -/
def SequenceManager.current_outbound (s : SequenceManager) : Nat :=
  s.nextOutbound - 1

/-- Result of inbound sequence validation (spec §3). -/
inductive SequenceResult
  | Expected
  | TooLow
  | GapDetected
  deriving DecidableEq, Repr

/-- Modelled from the spec: `validate_inbound` (sequence.hpp absent).
Spec §3: it compares `received` with `expected_inbound`; "on Expected it
increments, on TooLow it does not, on GapDetected it leaves state
alone". Returns the verdict and the updated expected-inbound value. -/
def validate_inbound (expected received : Nat) : SequenceResult × Nat :=
  if received = expected then (SequenceResult.Expected, expected + 1)
  else if received < expected then (SequenceResult.TooLow, expected)
  else (SequenceResult.GapDetected, expected)

-- ===========================================================================
-- Receiver-loop dispatch (coroutine_session.hpp lines 299-349)
-- ===========================================================================

/-- Observable effects of one receiver-loop iteration on a parsed
message: a ResendRequest covering a gap, the `on_error` callback,
routing to the admin handlers, or delivery to `on_app_message`. -/
inductive RxEvent
  | sentResendRequest (beginSeq endSeq : Nat)
  | errorCallback
  | routedAdmin
  | routedApp
  deriving DecidableEq, Repr

/-- Routing step of the receiver loop (lines 342-347): admin message
types go to `handle_admin_message`, everything else to
`on_app_message`. -/
def route_event (isAdmin : Bool) : RxEvent :=
  if isAdmin then RxEvent.routedAdmin else RxEvent.routedApp

/-- One iteration of `message_receiver_loop` after a successful parse
(coroutine_session.hpp lines 325-347), restricted to sequence handling
and routing.  `expected` is `sequences_.expected_inbound` before the
message; `seqNum`, `possDup` and `isAdmin` come from the parsed message.
On `GapDetected` a ResendRequest for `gap_range = (expected, seqNum-1)`
is sent and the message is still routed; on `TooLow` without PossDup the
error callback fires and the iteration `continue`s; every other case
falls through to routing.  Returns the emitted events in order and the
new expected-inbound value. -/
def receiver_dispatch (expected seqNum : Nat) (possDup isAdmin : Bool) :
    List RxEvent × Nat :=
  let v := validate_inbound expected seqNum
  match v.1 with
  | SequenceResult.GapDetected =>
      ([RxEvent.sentResendRequest v.2 (seqNum - 1), route_event isAdmin], v.2)
  | SequenceResult.TooLow =>
      if !possDup then ([RxEvent.errorCallback], v.2)
      else ([route_event isAdmin], v.2)
  | SequenceResult.Expected => ([route_event isAdmin], v.2)

-- ===========================================================================
-- Session state machine (state.hpp is not in the source tree)
-- ===========================================================================

/-- Modelled from the spec: `SessionState` (state.hpp absent), spec §3. -/
inductive SessionState
  | Disconnected
  | SocketConnected
  | LogonSent
  | Active
  | LogoutPending
  | LogoutReceived
  | Error
  deriving DecidableEq, Repr

/-- Modelled from the spec: `SessionEvent` (state.hpp absent), the event
column of the transition table in spec §4.7. -/
inductive SessionEvent
  | Connect
  | LogonSent
  | LogonReceived
  | LogonRejected
  | HeartbeatTimeout
  | LogoutSent
  | LogoutReceived
  | Disconnect
  | Error
  deriving DecidableEq, Repr

/-- Modelled from the spec: `next_state` (state.hpp absent), the
transition table of spec §4.7 including the "any | Error | Error" row;
non-listed pairs ("invalid and must not occur") leave the state
unchanged, which makes the session's `transition` a no-op on them. -/
def next_state (s : SessionState) (e : SessionEvent) : SessionState :=
  match s, e with
  | _, SessionEvent.Error => SessionState.Error
  | SessionState.Disconnected, SessionEvent.Connect => SessionState.SocketConnected
  | SessionState.SocketConnected, SessionEvent.LogonSent => SessionState.LogonSent
  | SessionState.LogonSent, SessionEvent.LogonReceived => SessionState.Active
  | SessionState.LogonSent, SessionEvent.LogonRejected => SessionState.Disconnected
  | SessionState.LogonSent, SessionEvent.HeartbeatTimeout => SessionState.Error
  | SessionState.Active, SessionEvent.LogoutSent => SessionState.LogoutPending
  | SessionState.Active, SessionEvent.LogoutReceived => SessionState.LogoutReceived
  | SessionState.Active, SessionEvent.HeartbeatTimeout => SessionState.Error
  | SessionState.Active, SessionEvent.Disconnect => SessionState.Disconnected
  | SessionState.LogoutPending, SessionEvent.LogoutReceived => SessionState.LogoutReceived
  | SessionState.LogoutReceived, SessionEvent.Disconnect => SessionState.Disconnected
  | s, _ => s

/-- Session error codes surfaced to callers (spec §6 error taxonomy;
`types/error.hpp` is not in the source tree). -/
inductive SessionErrorCode
  | NotConnected
  | InvalidState
  | LogonTimeout
  | LogoutTimeout
  | HeartbeatTimeout
  | SequenceGap
  | Disconnected
  deriving DecidableEq, Repr

/-- Session state plus the record of `on_state_change(from, to)`
callbacks emitted so far. -/
structure SessionCtx where
  state : SessionState
  callbacks : List (SessionState × SessionState)
  deriving DecidableEq, Repr

/-- `CoroutineSession::transition` (coroutine_session.hpp lines
592-599): compute `next_state`; when it differs from the current state,
install it and emit `on_state_change(prev, next)`. -/
def transition (c : SessionCtx) (e : SessionEvent) : SessionCtx :=
  let next := next_state c.state e
  if next = c.state then c
  else { state := next, callbacks := c.callbacks ++ [(c.state, next)] }

/-- `CoroutineSession::connect_phase` (coroutine_session.hpp lines
143-155): on a failed `connect_async`, `transition(Error)` and return
the `NotConnected` error (which `run` propagates unchanged, lines
63-66); on success, `transition(Connect)` and return no error. -/
def connect_phase (c : SessionCtx) (connectOk : Bool) :
    SessionCtx × Option SessionErrorCode :=
  if connectOk then (transition c SessionEvent.Connect, none)
  else (transition c SessionEvent.Error, some SessionErrorCode.NotConnected)

-- ===========================================================================
-- Outbound send discipline (coroutine_session.hpp lines 540-567)
-- ===========================================================================

/-- Sequence-number trace of one outbound send, e.g. `send_heartbeat`
(coroutine_session.hpp lines 555-567): the builder embeds
`sequences_.next_outbound()` as MsgSeqNum (line 560), then
`send_raw_unlocked` (lines 540-544) keys the message-store `store` call
by `sequences_.current_outbound()`.  Returns the embedded MsgSeqNum, the
store key, and the sequence manager after the send. -/
def send_store_trace (sm : SequenceManager) : Nat × Nat × SequenceManager :=
  let alloc := sm.next_outbound
  (alloc.1, alloc.2.current_outbound, alloc.2)

/-- Sequence-number trace of the gap-fill transmission inside
`handle_resend_request` (coroutine_session.hpp lines 500-510): the
SequenceReset is built with `msg_seq_num(begin)` (line 504) — no call to
`next_outbound` happens on this path — and is handed to
`send_raw_unlocked`, which, with a store attached, passes it to the
store keyed by `sequences_.current_outbound()` (lines 541-543).
Returns the embedded MsgSeqNum and the store key. -/
def gap_fill_send_trace (sm : SequenceManager) (beginSeq : Nat) : Nat × Nat :=
  (beginSeq, sm.current_outbound)

/-- One message put on the wire by `handle_resend_request`: either a
stored message replayed from the message store, or the SequenceReset
gap-fill with its MsgSeqNum, NewSeqNo and GapFillFlag fields. -/
inductive SentItem
  | stored (msg : List Char)
  | gapFill (msgSeqNum newSeqNo : Nat) (gapFillFlag : Bool)
  deriving DecidableEq, Repr

/-- `CoroutineSession::handle_resend_request` (coroutine_session.hpp
lines 479-511), as the list of messages it sends.  `beginSeq`/`endSeq`
are `get_int(7)`/`get_int(16)` of the parsed request (both must be
present, line 484).  `storeAttached` is `message_store_ != nullptr`;
`range` is what `message_store_->retrieve_range(begin, end)` returned.
A non-empty `range` is replayed in order; otherwise one SequenceReset is
built with `msg_seq_num(begin)`, `new_seq_no(current_outbound)` and
`gap_fill_flag(true)` and sent. -/
def handle_resend_request (sm : SequenceManager) (storeAttached : Bool)
    (range : List (List Char)) (beginSeq endSeq : Option Nat) :
    List SentItem :=
  match beginSeq, endSeq with
  | some b, some _ =>
      if storeAttached ∧ range ≠ [] then range.map SentItem.stored
      else [SentItem.gapFill b sm.current_outbound true]
  | _, _ => []

-- ===========================================================================
-- AsyncMutex.unlock (async_primitives.hpp lines 119-158)
-- ===========================================================================

/-- Abstract state of `AsyncMutex`'s atomic word: `unlocked` is the null
state, `locked ws` is held with intrusive waiter list `ws` (head first;
`locked []` is the locked-no-waiters sentinel).  Waiters are identified
by their coroutine handles, modelled as naturals. -/
inductive MutexState
  | unlocked
  | locked (waiters : List Nat)
  deriving DecidableEq, Repr

/-- `AsyncMutex::unlock` (async_primitives.hpp lines 119-158) in the
sequential model (each compare-and-swap succeeds first try), applied to
a held mutex with waiter list `ws`: with no waiters, CAS the sentinel to
`nullptr`; otherwise pop the head waiter, install its `next_` (or the
sentinel when it was alone), and resume the popped handle.  Returns the
new state and the handle resumed, if any. -/
def AsyncMutex.unlock : List Nat → MutexState × Option Nat
  | [] => (MutexState.unlocked, none)
  | w :: rest => (MutexState.locked rest, some w)

-- ===========================================================================
-- when_any (async_primitives.hpp lines 333-390)
-- ===========================================================================

/-- `WhenAnyState` of `when_any` (async_primitives.hpp lines 336-340)
plus an instrumentation counter: `contResumes` counts the
`state.continuation.resume()` calls performed by winning drivers. -/
structure WhenAnyState where
  done : Bool
  winnerIndex : Nat
  contSet : Bool
  contResumes : Nat
  deriving DecidableEq, Repr

/-- Initial combinator state (lines 336-342): `done = false`,
`winner_index = 0`, continuation unset. -/
def whenAnyInit : WhenAnyState :=
  { done := false, winnerIndex := 0, contSet := false, contResumes := 0 }

/-- Tail of a `make_driver` coroutine (lines 344-356) once its task
completed: CAS `done` from false to true; the winner records its index
and resumes the parent continuation if it is already set.  A driver that
loses the CAS changes nothing. -/
def driver_finish (s : WhenAnyState) (i : Nat) : WhenAnyState :=
  if s.done then s
  else
    { done := true, winnerIndex := i, contSet := s.contSet,
      contResumes := s.contResumes + (if s.contSet then 1 else 0) }

/-- The parent's `co_await WhenAnyAwaiter{state}` (lines 370-389):
`await_ready` is `done`; otherwise `await_suspend` stores the
continuation and re-checks `done`, resuming inline if it flipped.
Returns the state afterwards and whether the parent was left
suspended. -/
def parent_await (s : WhenAnyState) : WhenAnyState × Bool :=
  if s.done then (s, false)
  else
    let s1 := { s with contSet := true }
    if s1.done then ({ s1 with contResumes := s1.contResumes + 1 }, false)
    else (s1, true)

/-- Cooperative execution of the non-empty branch of `when_any`: the
start loop (lines 365-367) runs each driver once, and `pre` lists, in
completion order, the indices of drivers whose task finished during that
loop; the parent then awaits; `post` lists the driver completions after
that.  Drivers that never complete appear in neither list.  Returns the
final combinator state and whether the parent suspended at the
awaiter. -/
def when_any_run (pre post : List Nat) : WhenAnyState × Bool :=
  let s1 := pre.foldl driver_finish whenAnyInit
  let a := parent_await s1
  (post.foldl driver_finish a.1, a.2)

/-- Times the parent continuation runs past the `co_await`: once inline
when it never suspended, else once per `continuation.resume()`. -/
def parent_resume_count (r : WhenAnyState × Bool) : Nat :=
  (if r.2 then 0 else 1) + r.1.contResumes

/-- Top level of `when_any` (async_primitives.hpp lines 333-390):
`if (tasks.empty()) co_return 0;` short-circuits without ever
suspending; otherwise the result is `winner_index` of the race.
Returns the winner index and whether the parent suspended. -/
def when_any_result (taskCount : Nat) (pre post : List Nat) : Nat × Bool :=
  if taskCount = 0 then (0, false)
  else
    let r := when_any_run pre post
    (r.1.winnerIndex, r.2)

-- ===========================================================================
-- session_with_recovery (coroutine_session.hpp lines 636-670)
-- ===========================================================================

/-- Reduction of a mathematical integer to the 32-bit two's-complement
value a C++ `int` holds for it on mainstream targets (wrap modulo 2^32
into the interval from -2^31 to 2^31 - 1). -/
def toInt32 (x : Int) : Int :=
  (x + 2147483648) % 4294967296 - 2147483648

/-- Backoff delay in seconds before retry number `attempts + 1`
(coroutine_session.hpp lines 657-659):
`int delay_sec = config.reconnect_interval * (1 << attempts);` followed
by `if (delay_sec > 60) delay_sec = 60;`.  Both the shift and the
multiplication are 32-bit `int` arithmetic, embedded here with
two's-complement wrap (the conventional behaviour of the signed
overflow); the clamp only applies when the wrapped value exceeds 60, so
an overflowed negative product escapes it. -/
def backoff_delay (base : Int) (attempts : Nat) : Int :=
  let d := toInt32 (base * toInt32 (2 ^ attempts))
  if d > 60 then 60 else d

/-- `session_with_recovery` (coroutine_session.hpp lines 636-670),
reindexed by the number `rem = max_reconnect_attempts - attempts` of
loop iterations still permitted.  `outcome i` is what the `i`-th
`session.run` returns (`none` = graceful value, `some e` = error `e`).
With `rem = 0` the `while` guard fails and the trailing
`co_return Disconnected` runs.  Otherwise run once; on success stop; on
error increment `attempts` — when that exhausts the budget return the
error just seen, else wait `backoff_delay base attempts` (with the
incremented `attempts`) and loop.  Returns the final result, the waits
performed between runs, and how many times `session.run` ran. -/
def recover_rem (outcome : Nat → Option SessionErrorCode) (base : Int) :
    Nat → Nat → Option SessionErrorCode × List Int × Nat
  | _, 0 => (some SessionErrorCode.Disconnected, [], 0)
  | attempts, rem + 1 =>
      match outcome attempts with
      | none => (none, [], 1)
      | some e =>
          if rem = 0 then (some e, [], 1)
          else
            let r := recover_rem outcome base (attempts + 1) rem
            (r.1, backoff_delay base (attempts + 1) :: r.2.1, r.2.2 + 1)

/-- `session_with_recovery` proper: start with `attempts = 0`, so
`max_reconnect_attempts` iterations are permitted. -/
def session_with_recovery (outcome : Nat → Option SessionErrorCode)
    (base : Int) (maxAttempts : Nat) :
    Option SessionErrorCode × List Int × Nat :=
  recover_rem outcome base 0 maxAttempts

-- ===========================================================================
-- Theorems
-- ===========================================================================

/-- Claim C1, counterexample: a message with sequence 3 against expected
inbound 5 (`TooLow`) and PossDupFlag set is not silently skipped by the
receiver loop — it is delivered to `on_app_message`. -/
theorem c1_counterexample :
    RxEvent.routedApp ∈ (receiver_dispatch 5 3 true false).1 ∧
    (receiver_dispatch 5 3 true false).1 ≠ [] := by
  decide

/-- Claim C1 (amended): in the active-phase receiver loop, a received
message whose sequence validates as `TooLow` and whose PossDupFlag is
set produces no error callback and no resend request, but it is not
skipped: it is routed to the admin handlers or to `on_app_message`
according to its type, and the expected inbound sequence is left
unchanged. -/
theorem c1_too_low_poss_dup_routed (expected seqNum : Nat) (isAdmin : Bool)
    (h : seqNum < expected) :
    (receiver_dispatch expected seqNum true isAdmin).1 = [route_event isAdmin] ∧
    (receiver_dispatch expected seqNum true isAdmin).2 = expected := by
  have hne : seqNum ≠ expected := Nat.ne_of_lt h
  simp [receiver_dispatch, validate_inbound, hne, h]

/-- Claim C1, witness: the amended statement at expected 5, sequence 3,
PossDup set, application message. -/
theorem c1_too_low_poss_dup_routed_witness :
    3 < 5 ∧
    ((receiver_dispatch 5 3 true false).1 = [route_event false] ∧
     (receiver_dispatch 5 3 true false).2 = 5) :=
  ⟨by decide, c1_too_low_poss_dup_routed 5 3 false (by decide)⟩

/-- Claim C2, counterexample: the gap-fill SequenceReset of
`handle_resend_request` is an outbound message transmitted with a store
attached, built with `msg_seq_num(begin)` and never allocated through
`next_outbound`; with BeginSeqNo 5 and the outbound counter at 7 it
carries MsgSeqNum 5 but `send_raw_unlocked` stores it keyed by
`current_outbound` = 6. -/
theorem c2_counterexample :
    (gap_fill_send_trace ⟨7, 1⟩ 5).1 = 5 ∧
    (gap_fill_send_trace ⟨7, 1⟩ 5).2 = 6 ∧
    (gap_fill_send_trace ⟨7, 1⟩ 5).2 ≠ (gap_fill_send_trace ⟨7, 1⟩ 5).1 := by
  decide

/-- Claim C2 (amended): for messages built immediately before the send
— the builder paths that call `next_outbound` — the key
`send_raw_unlocked` passes to the store equals the MsgSeqNum the builder
embedded (with `current_outbound` modelled from the spec's send
discipline as the most recently allocated outbound sequence).  But
`send_raw_unlocked` always keys by `current_outbound`, so messages
transmitted by `handle_resend_request` without a fresh allocation — the
gap-fill SequenceReset, which carries BeginSeqNo as its MsgSeqNum —
are stored under a key that differs from their embedded MsgSeqNum
whenever BeginSeqNo ≠ current_outbound.  -/
theorem c2_store_key_paths (sm : SequenceManager) (beginSeq : Nat) :
    ((send_store_trace sm).2.1 = (send_store_trace sm).1) ∧
    ((gap_fill_send_trace sm beginSeq).2 = sm.current_outbound) ∧
    (beginSeq ≠ sm.current_outbound →
      (gap_fill_send_trace sm beginSeq).2 ≠
        (gap_fill_send_trace sm beginSeq).1) := by
  refine ⟨?_, rfl, fun h => ?_⟩
  · simp [send_store_trace, SequenceManager.next_outbound,
      SequenceManager.current_outbound]
  · exact fun he => h he.symm

/-- Claim C2, witness: the amended statement at an outbound counter of 7
and BeginSeqNo 5 (so `current_outbound` = 6 ≠ 5). -/
theorem c2_store_key_paths_witness :
    5 ≠ (⟨7, 1⟩ : SequenceManager).current_outbound ∧
    (((send_store_trace ⟨7, 1⟩).2.1 = (send_store_trace ⟨7, 1⟩).1) ∧
     ((gap_fill_send_trace ⟨7, 1⟩ 5).2 =
       (⟨7, 1⟩ : SequenceManager).current_outbound) ∧
     ((gap_fill_send_trace ⟨7, 1⟩ 5).2 ≠ (gap_fill_send_trace ⟨7, 1⟩ 5).1)) :=
  ⟨by decide,
   ⟨(c2_store_key_paths ⟨7, 1⟩ 5).1, (c2_store_key_paths ⟨7, 1⟩ 5).2.1,
    (c2_store_key_paths ⟨7, 1⟩ 5).2.2 (by decide)⟩⟩

/-- Claim C3: `handle_resend_request` with BeginSeqNo `b` and EndSeqNo
`e` replays a non-empty store range in order; with an empty range, or
with no store attached, it sends exactly one SequenceReset with
`MsgSeqNum = b`, `NewSeqNo = current_outbound` and `GapFillFlag`
true. -/
theorem c3_resend_request (sm : SequenceManager) (b e : Nat)
    (range : List (List Char)) :
    (range ≠ [] →
      handle_resend_request sm true range (some b) (some e) =
        range.map SentItem.stored) ∧
    (handle_resend_request sm true [] (some b) (some e) =
      [SentItem.gapFill b sm.current_outbound true]) ∧
    (handle_resend_request sm false range (some b) (some e) =
      [SentItem.gapFill b sm.current_outbound true]) := by
  refine ⟨fun h => ?_, ?_, ?_⟩ <;> simp [handle_resend_request]
  intro h
  exact absurd h (by assumption)

/-- Claim C3, witness: a one-message range is replayed; with no store
attached the gap fill `SequenceReset(34=5, 36=6, 123=Y)` is sent by a
session whose outbound counter stands at 7. -/
theorem c3_resend_request_witness :
    handle_resend_request ⟨7, 1⟩ true [['x']] (some 5) (some 7) =
      [SentItem.stored ['x']] ∧
    handle_resend_request ⟨7, 1⟩ false [['x']] (some 5) (some 7) =
      [SentItem.gapFill 5 6 true] :=
  ⟨(c3_resend_request ⟨7, 1⟩ 5 7 [['x']]).1 (by decide),
   (c3_resend_request ⟨7, 1⟩ 5 7 [['x']]).2.2⟩

/-- Claim C4, counterexample: when the transport's connect fails, `run`
does return the `NotConnected` error, but the session does not stay in
`Disconnected` with no callback — `connect_phase` transitions to `Error`
and emits `on_state_change`. -/
theorem c4_counterexample :
    (connect_phase ⟨SessionState.Disconnected, []⟩ false).2 =
      some SessionErrorCode.NotConnected ∧
    (connect_phase ⟨SessionState.Disconnected, []⟩ false).1.state ≠
      SessionState.Disconnected ∧
    (connect_phase ⟨SessionState.Disconnected, []⟩ false).1.callbacks ≠ [] := by
  decide

/-- Claim C4 (amended): if the transport's connect call fails, `run`
returns the `NotConnected` error and the session transitions
`Disconnected → Error`, emitting exactly one
`on_state_change(Disconnected, Error)` callback. -/
theorem c4_connect_failure :
    connect_phase ⟨SessionState.Disconnected, []⟩ false =
      (⟨SessionState.Error, [(SessionState.Disconnected, SessionState.Error)]⟩,
       some SessionErrorCode.NotConnected) := by
  decide

/-- `updateFirst` fails exactly when no entry carries the sequence. -/
theorem updateFirst_eq_none (seq : Nat) (msg : List Char)
    (l : List (Nat × List Char)) :
    updateFirst seq msg l = none ↔ l.any (fun p => p.1 = seq) = false := by
  induction l with
  | nil => simp [updateFirst]
  | cons p rest ih =>
      by_cases h : p.1 = seq
      · simp [updateFirst, h]
      · simp [updateFirst, h, ih]

/-- An in-place update keeps the number of entries. -/
theorem updateFirst_length (seq : Nat) (msg : List Char) :
    ∀ l l' : List (Nat × List Char),
      updateFirst seq msg l = some l' → l'.length = l.length := by
  intro l
  induction l with
  | nil => intro l' h; simp [updateFirst] at h
  | cons p rest ih =>
      intro l' h
      by_cases hp : p.1 = seq
      · simp [updateFirst, hp] at h
        simp [← h]
      · simp [updateFirst, hp] at h
        obtain ⟨a, ha, rfl⟩ := h
        simp [ih a ha]

/-- After an in-place update the first entry for the sequence holds the
new payload. -/
theorem updateFirst_lookup (seq : Nat) (msg : List Char) :
    ∀ l l' : List (Nat × List Char),
      updateFirst seq msg l = some l' → lookupSeq seq l' = some msg := by
  intro l
  induction l with
  | nil => intro l' h; simp [updateFirst] at h
  | cons p rest ih =>
      intro l' h
      by_cases hp : p.1 = seq
      · simp [updateFirst, hp] at h
        simp [← h, lookupSeq, hp]
      · simp [updateFirst, hp] at h
        obtain ⟨a, ha, rfl⟩ := h
        simp [lookupSeq, hp, ih a ha]

/-- Claim C5, counterexample: a `MemoryStore` at capacity (one entry,
`max_messages = 1`) refuses `store` even for a sequence that is already
present — it bumps `store_failures` and leaves the entry untouched,
while the claim requires an in-place update returning true. -/
theorem c5_counterexample :
    (MemoryStore.store ⟨[(1, ['a'])], 1, 0, 1, 1⟩ 1 ['b']).2 = false ∧
    (MemoryStore.store ⟨[(1, ['a'])], 1, 0, 1, 1⟩ 1 ['b']).1.storeFailures = 1 ∧
    (MemoryStore.store ⟨[(1, ['a'])], 1, 0, 1, 1⟩ 1 ['b']).1.messages =
      [(1, ['a'])] := by
  decide

/-- Claim C5 (amended): `MemoryStore.store` returns false and increments
`store_failures` exactly when the store already holds `max_messages`
entries at the time of the call, regardless of whether `seq` is present
(the capacity check precedes the lookup); below capacity it updates the
first entry for `seq` in place when one exists — same entry count, the
sequence now mapping to the new payload — and appends otherwise, in both
cases returning true and leaving `store_failures` alone. -/
theorem c5_store_characterization (st : MemoryStore) (seqNum : Nat)
    (msg : List Char) :
    ((MemoryStore.store st seqNum msg).2 = false ↔
      st.maxMessages ≤ st.messages.length) ∧
    (st.maxMessages ≤ st.messages.length →
      (MemoryStore.store st seqNum msg).1 =
        { st with storeFailures := st.storeFailures + 1 }) ∧
    (st.messages.length < st.maxMessages →
      ((st.messages.any (fun p => p.1 = seqNum) = true →
         (MemoryStore.store st seqNum msg).1.messages.length =
           st.messages.length ∧
         lookupSeq seqNum (MemoryStore.store st seqNum msg).1.messages =
           some msg ∧
         (MemoryStore.store st seqNum msg).1.storeFailures =
           st.storeFailures ∧
         (MemoryStore.store st seqNum msg).2 = true) ∧
       (st.messages.any (fun p => p.1 = seqNum) = false →
         (MemoryStore.store st seqNum msg).1.messages =
           st.messages ++ [(seqNum, msg)] ∧
         (MemoryStore.store st seqNum msg).1.storeFailures =
           st.storeFailures ∧
         (MemoryStore.store st seqNum msg).2 = true))) := by
  unfold MemoryStore.store
  by_cases hcap : st.maxMessages ≤ st.messages.length
  · simp [hcap]
  · have hlt : st.messages.length < st.maxMessages := by omega
    cases hu : updateFirst seqNum msg st.messages with
    | some l =>
        have hany : st.messages.any (fun p => p.1 = seqNum) = true := by
          cases hv : st.messages.any (fun p => p.1 = seqNum) with
          | true => rfl
          | false =>
              rw [(updateFirst_eq_none seqNum msg st.messages).mpr hv] at hu
              simp at hu
        simp [hcap, hu, hany, updateFirst_length seqNum msg st.messages l hu,
          updateFirst_lookup seqNum msg st.messages l hu]
    | none =>
        have hany : st.messages.any (fun p => p.1 = seqNum) = false :=
          (updateFirst_eq_none seqNum msg st.messages).mp hu
        simp [hcap, hu, hany]

/-- Claim C5, witness: the amended statement's below-capacity in-place
branch at a store holding one entry for sequence 2 with room for five:
storing new bytes under 2 keeps one entry, rebinds it, and leaves
`store_failures` at 0. -/
theorem c5_store_characterization_witness :
    (MemoryStore.store ⟨[(2, ['x'])], 5, 0, 1, 1⟩ 2 ['y']).1.messages.length =
      1 ∧
    lookupSeq 2 (MemoryStore.store ⟨[(2, ['x'])], 5, 0, 1, 1⟩ 2
      ['y']).1.messages = some ['y'] ∧
    (MemoryStore.store ⟨[(2, ['x'])], 5, 0, 1, 1⟩ 2 ['y']).1.storeFailures =
      0 ∧
    (MemoryStore.store ⟨[(2, ['x'])], 5, 0, 1, 1⟩ 2 ['y']).2 = true :=
  ((c5_store_characterization ⟨[(2, ['x'])], 5, 0, 1, 1⟩ 2 ['y']).2.2
    (by decide)).1 (by decide)

/-- Claim C6: `AsyncMutex.unlock` on a held mutex resumes exactly the
head waiter when the waiter list is non-empty — the head is removed and
its handle is the one resumed — and resumes nobody when there are no
waiters, in which case the state becomes unlocked. -/
theorem c6_unlock_resumes_head (ws : List Nat) :
    (AsyncMutex.unlock ws).2 = (if ws.isEmpty then none else some ws.headI) ∧
    (AsyncMutex.unlock ws).1 =
      (if ws.isEmpty then MutexState.unlocked
       else MutexState.locked ws.tail) := by
  cases ws <;> simp [AsyncMutex.unlock]

/-- A driver that loses the `done` CAS leaves the combinator state
untouched. -/
theorem driver_finish_of_done (s : WhenAnyState) (i : Nat)
    (h : s.done = true) : driver_finish s i = s := by
  simp [driver_finish, h]

/-- Once `done` is set, any further driver completions are no-ops. -/
theorem foldl_driver_finish_of_done (s : WhenAnyState) (l : List Nat)
    (h : s.done = true) : l.foldl driver_finish s = s := by
  induction l with
  | nil => rfl
  | cons x xs ih => rw [List.foldl_cons, driver_finish_of_done s x h, ih]

/-- A race whose first completion happens during the start loop: that
driver wins with the continuation still unset, and the parent never
suspends. -/
theorem when_any_run_cons (p : Nat) (ps post : List Nat) :
    when_any_run (p :: ps) post = (⟨true, p, false, 0⟩, false) := by
  have h1 : driver_finish whenAnyInit p = ⟨true, p, false, 0⟩ := by
    simp [driver_finish, whenAnyInit]
  have h2 : parent_await ⟨true, p, false, 0⟩ = (⟨true, p, false, 0⟩, false) := by
    simp [parent_await]
  simp only [when_any_run, List.foldl_cons, h1,
    foldl_driver_finish_of_done ⟨true, p, false, 0⟩ ps rfl, h2,
    foldl_driver_finish_of_done ⟨true, p, false, 0⟩ post rfl]

/-- A race with no completion during the start loop: the parent
suspends, and the first later completion wins and performs the single
continuation resume. -/
theorem when_any_run_nil (q : Nat) (qs : List Nat) :
    when_any_run [] (q :: qs) = (⟨true, q, true, 1⟩, true) := by
  have h2 : parent_await whenAnyInit =
      (⟨false, 0, true, 0⟩, true) := by
    simp [parent_await, whenAnyInit]
  have h3 : driver_finish ⟨false, 0, true, 0⟩ q = ⟨true, q, true, 1⟩ := by
    simp [driver_finish]
  simp only [when_any_run, List.foldl_nil, h2, List.foldl_cons, h3,
    foldl_driver_finish_of_done ⟨true, q, true, 1⟩ qs rfl]

/-- Claim C7: in any cooperative execution of `when_any` over a
non-empty task vector in which at least one driver completes, the parent
continuation runs exactly once, and `winner_index` is the index of the
first driver to win the `done` CAS (the first element of the completion
order). -/
theorem c7_when_any_single_winner (pre post : List Nat)
    (h : pre ++ post ≠ []) :
    (when_any_run pre post).1.winnerIndex = (pre ++ post).headI ∧
    parent_resume_count (when_any_run pre post) = 1 ∧
    (when_any_run pre post).1.done = true := by
  cases pre with
  | cons p ps =>
      rw [when_any_run_cons]
      simp [parent_resume_count]
  | nil =>
      cases post with
      | nil => exact absurd rfl h
      | cons q qs =>
          rw [when_any_run_nil]
          simp [parent_resume_count]

/-- Claim C7, witness: driver 2 completes during the start loop, driver
0 afterwards; the parent runs once and the winner is 2. -/
theorem c7_when_any_single_winner_witness :
    (([2] ++ [0] : List Nat) ≠ []) ∧
    ((when_any_run [2] [0]).1.winnerIndex = ([2] ++ [0] : List Nat).headI ∧
     parent_resume_count (when_any_run [2] [0]) = 1 ∧
     (when_any_run [2] [0]).1.done = true) :=
  ⟨by decide, c7_when_any_single_winner [2] [0] (by decide)⟩

/-- Claim C10: `when_any` on an empty task vector completes immediately
— the parent never suspends — returning index 0, the very value a
victory of task 0 produces, so the two cases are indistinguishable to
the caller. -/
theorem c10_when_any_empty :
    when_any_result 0 [] [] = (0, false) ∧
    when_any_result 2 [0] [] = (0, false) ∧
    when_any_result 0 [] [] = when_any_result 2 [0] [] := by
  decide

/-- Inside the representable range of a 32-bit `int`, `toInt32` is the
identity. -/
theorem toInt32_eq_self (x : Int) (h1 : -2147483648 ≤ x)
    (h2 : x < 2147483648) : toInt32 x = x := by
  unfold toInt32
  rw [Int.emod_eq_of_lt (by omega) (by omega)]
  omega

/-- As long as the 32-bit arithmetic does not overflow (non-negative
base, product below 2^31), the clamp in the backoff computation is
exactly a minimum with 60 seconds. -/
theorem backoff_delay_eq_min (base : Int) (a : Nat) (h0 : 0 ≤ base)
    (hb : base * 2 ^ a < 2147483648) :
    backoff_delay base a = min (base * 2 ^ a) 60 := by
  rcases eq_or_lt_of_le h0 with hz | hpos
  · rw [← hz]
    have ht : toInt32 0 = 0 := by decide
    have hmin : min (0 : Int) 60 = 0 := by decide
    simp [backoff_delay, ht, hmin]
  · have hpow0 : (0 : Int) ≤ 2 ^ a := by positivity
    have h1 : (1 : Int) ≤ base := hpos
    have h2a : (2 : Int) ^ a < 2147483648 :=
      lt_of_le_of_lt (le_mul_of_one_le_left hpow0 h1) hb
    have e1 : toInt32 (2 ^ a) = 2 ^ a :=
      toInt32_eq_self _ (by omega) h2a
    have hmul0 : (0 : Int) ≤ base * 2 ^ a := mul_nonneg h0 hpow0
    have e2 : toInt32 (base * 2 ^ a) = base * 2 ^ a :=
      toInt32_eq_self _ (by omega) hb
    unfold backoff_delay
    rw [e1, e2]
    rcases le_or_lt (base * 2 ^ a) 60 with h | h
    · rw [if_neg (not_lt.mpr h), min_eq_left h]
    · rw [if_pos h, min_eq_right h.le]

/-- When every run fails, `rem` permitted iterations starting at attempt
counter `a` perform all of them, wait `backoff_delay base (a+k+1)` after
the `k`-th failure (the counter is incremented before the delay is
computed), and end with the last run's error. -/
theorem recover_rem_all_fail (f : Nat → SessionErrorCode) (base : Int) :
    ∀ r a : Nat,
      recover_rem (fun i => some (f i)) base a (r + 1) =
        (some (f (a + r)),
         (List.range r).map (fun k => backoff_delay base (a + k + 1)),
         r + 1) := by
  intro r
  induction r with
  | zero => intro a; simp [recover_rem]
  | succ n ih =>
      intro a
      have hstep :
          recover_rem (fun i => some (f i)) base a (n + 1 + 1) =
            ((recover_rem (fun i => some (f i)) base (a + 1) (n + 1)).1,
             backoff_delay base (a + 1) ::
               (recover_rem (fun i => some (f i)) base (a + 1) (n + 1)).2.1,
             (recover_rem (fun i => some (f i)) base (a + 1) (n + 1)).2.2 + 1) :=
        rfl
      rw [hstep, ih (a + 1)]
      simp only [Prod.mk.injEq]
      refine ⟨by rw [show a + 1 + n = a + (n + 1) from by omega], ?_, trivial⟩
      rw [List.range_succ_eq_map, List.map_cons, List.map_map]
      congr 1
      apply List.map_congr_left
      intro k _
      simp only [Function.comp_apply]
      congr 1
      omega

/-- Claim C9, counterexample: with base 7, the wait computed after the
30th failed run is `7 * (1 << 30)` in 32-bit `int` — it wraps to
-1073741824, escapes the `> 60` clamp (so no wait is performed), and is
exactly the last wait of a 31-attempt all-failing supervisor run; the
claimed capped value would have been 60. -/
theorem c9_counterexample :
    backoff_delay 7 30 = -1073741824 ∧
    (session_with_recovery (fun _ => some SessionErrorCode.NotConnected) 7
        31).2.1.getLast? = some (-1073741824) ∧
    min ((7 : Int) * 2 ^ 30) 60 = 60 := by
  decide

/-- Claim C9 (amended): with every `session.run` failing,
`session_with_recovery` runs the session exactly
`max_reconnect_attempts` times and returns the error of the last run
once the attempts are exhausted; provided the 32-bit backoff arithmetic
does not overflow (non-negative base with `base * 2^maxA < 2^31`), the
wait between consecutive attempts is `min(base · 2^attempt, 60)` seconds
(with `attempt` the 1-based count of failed runs so far, as in the
source's `attempts` variable — for larger attempt counts the
multiplication wraps and a negative result escapes the clamp, producing
no wait). -/
theorem c9_recovery_backoff (f : Nat → SessionErrorCode) (base : Int)
    (maxA : Nat) (h : 1 ≤ maxA) (h0 : 0 ≤ base)
    (hb : base * 2 ^ maxA < 2147483648) :
    session_with_recovery (fun i => some (f i)) base maxA =
      (some (f (maxA - 1)),
       (List.range (maxA - 1)).map (fun k => min (base * 2 ^ (k + 1)) 60),
       maxA) := by
  obtain ⟨r, rfl⟩ : ∃ r, maxA = r + 1 := ⟨maxA - 1, by omega⟩
  unfold session_with_recovery
  rw [recover_rem_all_fail f base r 0]
  simp only [Prod.mk.injEq, Nat.add_sub_cancel, Nat.zero_add]
  refine ⟨trivial, ?_, trivial⟩
  apply List.map_congr_left
  intro k hk
  have hkr : k < r := List.mem_range.mp hk
  have hpow : (2 : Int) ^ (k + 1) ≤ 2 ^ (r + 1) :=
    pow_le_pow_right₀ (by norm_num) (by omega)
  have hb' : base * 2 ^ (k + 1) < 2147483648 :=
    lt_of_le_of_lt (mul_le_mul_of_nonneg_left hpow h0) hb
  rw [backoff_delay_eq_min base (k + 1) h0 hb']

/-- Claim C9, witness: three attempts with base 7 (no overflow: 56 <
2^31) and every run failing with `NotConnected`: three runs, waits of 14
then 28 seconds, and the last error returned. -/
theorem c9_recovery_backoff_witness :
    1 ≤ 3 ∧ (0 : Int) ≤ 7 ∧ (7 : Int) * 2 ^ 3 < 2147483648 ∧
    session_with_recovery (fun _ => some SessionErrorCode.NotConnected) 7 3 =
      (some SessionErrorCode.NotConnected, [14, 28], 3) := by
  refine ⟨by decide, by decide, by decide, ?_⟩
  rw [c9_recovery_backoff (fun _ => SessionErrorCode.NotConnected) 7 3
    (by decide) (by decide) (by decide)]
  decide

end NexusFix
